import Mathlib

/-!
Shallow embedding of `src/run.rs` of the joshuto terminal file manager:
the main event loop (`run`), the chorded-keybinding resolver
(`recurse_get_keycommand`), and the background-operation tracker
(`process_threads` / `join_thread` / `reload_tab`), together with
theorems settling the specification claims about them.

Modelling conventions:
- machine integers that index lists are `Nat`; the ncurses input timeout
  is an `Int` (the source passes `-1` for indefinite blocking);
- commands are opaque in the source (`JoshutoCommand` trait objects);
  they are modelled by a `Nat` identifier;
- side effects (UI calls, thread joins) are recorded in an explicit
  trace of `Effect` values; pure rendering calls with no observable
  state (`ncurses::doupdate`, menu drawing, `werase`) are not traced;
- fallible Rust functions returning `std::io::Result` become `Except Nat`
  (the `Nat` standing for the opaque io error value), and the `?`
  operator becomes early return of the error;
- a Rust indexing operation that could panic is modelled with `List.get?`
  and a `PanicOr` outcome, so absence of out-of-bounds access is provable
  rather than assumed.
-/

/-- Terminal input keys (`termion::event::Key`): a character key,
Escape, or any other non-character key (arrows, function keys, ...)
collapsed to `other n`. -/
inductive Key where
  | Char : Char → Key
  | Esc : Key
  | other : Nat → Key
deriving DecidableEq

/-- Modelled from the spec: the Event Source's event type
(`crate::util::event::Event` is not under `src/`); per spec section 6 the
source produces InputKey, Resize or Tick events. -/
inductive Event where
  | Input : Key → Event
  | Resize : Event
  | Tick : Event
deriving DecidableEq

/-- Commands are opaque to the loop core; modelled by an identifier. -/
abbrev JoshutoCommand := Nat

/-- `CommandKeybind`: a key is bound either to a simple command or to a
nested mapping (chorded binding). The mapping (`JoshutoCommandMapping`,
a hash map in the source) is modelled as an association list with
first-match lookup. -/
inductive CommandKeybind where
  | SimpleKeybind : JoshutoCommand → CommandKeybind
  | CompositeKeybind : List (Key × CommandKeybind) → CommandKeybind

/-- Association-list lookup modelling `HashMap::get` on the keymap. -/
def lookupKeymap : List (Key × CommandKeybind) → Key → Option CommandKeybind
  | [], _ => none
  | (k, v) :: rest, key => if k = key then some v else lookupKeymap rest key

/-- True exactly on character keys (`Key::Char(_)` in the source). -/
def isChar : Key → Bool
  | Key.Char _ => true
  | _ => false

/-- `recurse_get_keycommand keymap events`: the chord sub-loop of
`src/run.rs`. The source sets `ncurses::timeout(-1)` on entry, draws the
menu overlay, awaits exactly one further event, and on a character key
present in the mapping either returns the bound simple command or
recurses into the nested mapping; Escape, any other key, a missing key
or an event-source error yield `none`. The `events` list is the stream
of further events the blocking `events.next()` calls would deliver (an
exhausted list models `events.next()` returning `Err`). The returned
`Int` is the ncurses input-timeout value in effect when the function
returns: the source never calls `ncurses::timeout` again after the `-1`
at entry, so every return path leaves `-1`. -/
def recurse_get_keycommand :
    List (Key × CommandKeybind) → List Event → Option JoshutoCommand × Int
  | _, [] => (none, -1)
  | keymap, e :: rest =>
    match e with
    | Event.Input Key.Esc => (none, -1)
    | Event.Input (Key.Char c) =>
      match lookupKeymap keymap (Key.Char c) with
      | some (CommandKeybind.CompositeKeybind m) => recurse_get_keycommand m rest
      | some (CommandKeybind.SimpleKeybind s) => (some s, -1)
      | none => (none, -1)
    | Event.Input (Key.other _) => (none, -1)
    | _ => (none, -1)

/-- The top-level key resolution performed inline in `run`
(`src/run.rs` lines 168-186): the pressed key is looked up in the root
keymap — a composite binding enters `recurse_get_keycommand` with the
subsequent events, a simple binding resolves immediately, a missing key
resolves to nothing. -/
def run_resolve (keymap_t : List (Key × CommandKeybind)) (key : Key)
    (chord : List Event) : Option JoshutoCommand :=
  match lookupKeymap keymap_t key with
  | some (CommandKeybind.CompositeKeybind m) =>
      (recurse_get_keycommand m chord).1
  | some (CommandKeybind.SimpleKeybind s) => some s
  | none => none

/-- `ReachesSimple m ks c`: the key sequence `ks` follows a path from
mapping `m` through `CompositeKeybind` nodes to a `SimpleKeybind`
binding command `c`. This is the spec-side notion of "a key sequence
that exactly follows a path from the root to a Simple node". -/
inductive ReachesSimple :
    List (Key × CommandKeybind) → List Key → JoshutoCommand → Prop where
  | simple : ∀ m k c,
      lookupKeymap m k = some (CommandKeybind.SimpleKeybind c) →
      ReachesSimple m [k] c
  | comp : ∀ m k m2 ks c,
      lookupKeymap m k = some (CommandKeybind.CompositeKeybind m2) →
      ReachesSimple m2 ks c →
      ReachesSimple m (k :: ks) c

/-- Observable side effects of the loop core, in execution order.
`reloadCall i` records the `ReloadDirList::reload(i, ...)` invocation,
`refreshTab i` the `tabs[i].refresh(...)` panel redraw, `joinCall s d`
the `thread.handle.join()` of the operation with source tab `s` and
destination tab `d`, `joinErrMsg e` the status-bar message printed for
an abnormal worker termination, `execCmd s` the `keycommand.execute`
dispatch, `cmdErrMsg e` the status message for a failed command, and
`unknownKeycodeMsg` the "Unknown keycode" status message. -/
inductive Effect where
  | reloadCall : Nat → Effect
  | refreshTab : Nat → Effect
  | drawProgress : Nat → Effect
  | joinCall : Nat → Nat → Effect
  | joinErrMsg : Nat → Effect
  | execCmd : JoshutoCommand → Effect
  | cmdErrMsg : Nat → Effect
  | unknownKeycodeMsg : Effect
  | redrawTabView : Effect
deriving DecidableEq

/-- Outcome of one bounded-wait `recv_timeout` on an operation's
progress channel: the channel disconnected (worker finished), delivered
a progress snapshot, or timed out with nothing to report. -/
inductive RecvResult where
  | Disconnected : RecvResult
  | Progress : Nat → RecvResult
  | Timeout : RecvResult
deriving DecidableEq

/-- Outcome of joining the worker thread (`thread.handle.join()`):
normal completion or an abnormal termination carrying an opaque
panic payload. -/
inductive JoinResult where
  | JoinOk : JoinResult
  | JoinErr : Nat → JoinResult
deriving DecidableEq

/-- `FileOperationThread`: a tracked background operation. `tab_src` and
`tab_dest` are the source and destination tab indices recorded at spawn
time. `recvResult` models what the next `recv_timeout` on its progress
channel returns, and `joinResult` what joining its handle returns
(the handle and channel themselves live outside `src/`). -/
structure FileOperationThread where
  tab_src : Nat
  tab_dest : Nat
  recvResult : RecvResult
  joinResult : JoinResult
deriving DecidableEq

/-- `JoshutoTab`: a tab's cached directory listing. `listing` is the
cached listing value, `diskListing` the value a fresh re-read of the
directory would produce, and `reloadErr` is `some e` when the directory
has become inaccessible so that a re-read fails with io error `e`. -/
structure JoshutoTab where
  listing : Nat
  diskListing : Nat
  reloadErr : Option Nat
deriving DecidableEq

/-- `JoshutoContext`: the session state threaded through the loop —
the exit flag, the open tabs, the active tab index, and the list of
tracked background operations. -/
structure JoshutoContext where
  exit : Bool
  tabs : List JoshutoTab
  curr_tab_index : Nat
  threads : List FileOperationThread
deriving DecidableEq

/-- Modelled from the spec: `ReloadDirList::reload(index, context)`
(`crate::commands`, not under `src/`) re-reads the directory listing of
tab `index` from the filesystem and stores it in the tab, failing with
the tab's io error when the directory became inaccessible; per the
spec's tab/listing interface it is `reload(index) -> Result<(), IOFailure>`
and touches nothing but that tab's cached listing. -/
def ReloadDirList.reload (index : Nat) (ctx : JoshutoContext) :
    Except Nat JoshutoContext :=
  match ctx.tabs.get? index with
  | none => Except.error 0
  | some tab =>
    match tab.reloadErr with
    | some e => Except.error e
    | none =>
        Except.ok { ctx with
          tabs := ctx.tabs.set index { tab with listing := tab.diskListing } }

/-- `reload_tab index context view` (`src/run.rs` lines 62-73):
re-reads tab `index`'s listing via `ReloadDirList::reload`, propagating
a reload failure with `?`, and refreshes the tab's panel exactly when
`index` is the current tab index. Returns the result, the context after
the call, and the trace of effects. -/
def reload_tab (index : Nat) (ctx : JoshutoContext) :
    Except Nat Unit × JoshutoContext × List Effect :=
  match ReloadDirList.reload index ctx with
  | Except.error e => (Except.error e, ctx, [Effect.reloadCall index])
  | Except.ok ctx2 =>
    if index = ctx2.curr_tab_index then
      (Except.ok (), ctx2, [Effect.reloadCall index, Effect.refreshTab index])
    else
      (Except.ok (), ctx2, [Effect.reloadCall index])

/-- Continuation of `join_thread` after the source-tab step: given the
source-step outcome `s1` (result, context, trace), a source-step error
propagates with `?`; otherwise the destination tab is reloaded when its
index differs from the source and is still valid. The `joinCall` effect
of the preceding `thread.handle.join()` is prepended to the trace. -/
def join_reload_dest (src dest : Nat)
    (s1 : Except Nat Unit × JoshutoContext × List Effect) :
    Except Nat Unit × JoshutoContext × List Effect :=
  match s1 with
  | (Except.error e, ctx1, tr1) =>
      (Except.error e, ctx1, Effect.joinCall src dest :: tr1)
  | (Except.ok _, ctx1, tr1) =>
      if dest ≠ src ∧ dest < ctx1.tabs.length then
        match reload_tab dest ctx1 with
        | (r2, ctx2, tr2) =>
            (r2, ctx2, Effect.joinCall src dest :: (tr1 ++ tr2))
      else
        (Except.ok (), ctx1, Effect.joinCall src dest :: tr1)

/-- `join_thread context thread view` (`src/run.rs` lines 75-99): joins
the finished worker; on an abnormal termination prints the cause to the
bottom panel and skips reloading; on normal completion reloads the
source tab when its index is still valid and then the destination tab
when it differs from the source and is still valid, propagating any
reload error with `?`. -/
def join_thread (ctx : JoshutoContext) (thread : FileOperationThread) :
    Except Nat Unit × JoshutoContext × List Effect :=
  match thread.joinResult with
  | JoinResult.JoinErr e =>
      (Except.ok (), ctx,
        [Effect.joinCall thread.tab_src thread.tab_dest, Effect.joinErrMsg e])
  | JoinResult.JoinOk =>
      join_reload_dest thread.tab_src thread.tab_dest
        (if thread.tab_src < ctx.tabs.length then reload_tab thread.tab_src ctx
         else (Except.ok (), ctx, []))

/-- `Vec::swap_remove(i)`: replace the element at `i` with the last
element and pop the last element. Callers in this file only invoke it
at an index that was just successfully read, so the list is nonempty. -/
def swapRemove (l : List α) (i : Nat) : List α :=
  match l.getLast? with
  | some last => (l.set i last).dropLast
  | none => l

/-- Outcome of code that may hit a Rust panic (out-of-bounds index). -/
inductive PanicOr (α : Type) where
  | panic : PanicOr α
  | ok : α → PanicOr α
deriving DecidableEq

/-- True exactly on the panic outcome. -/
def PanicOr.isPanic : PanicOr α → Bool
  | PanicOr.panic => true
  | PanicOr.ok _ => false

/-- The body of the `for i in 0..context.threads.len()` loop of
`process_threads` (`src/run.rs` lines 101-119), iterating over the
remaining index list (the Rust range is evaluated once, before the loop
runs). Indexing `context.threads[i]` is modelled with `get?`, a miss
being a Rust panic. On a disconnected channel the operation is
swap-removed, its worker joined (a join-path error propagating with
`?`), and the loop breaks; on a progress value the progress is drawn
and scanning continues; on a timeout scanning continues. -/
def process_threads_go (ctx : JoshutoContext) :
    List Nat → PanicOr (Except Nat Unit × JoshutoContext × List Effect)
  | [] => PanicOr.ok (Except.ok (), ctx, [])
  | i :: rest =>
    match ctx.threads.get? i with
    | none => PanicOr.panic
    | some th =>
      match th.recvResult with
      | RecvResult.Disconnected =>
          PanicOr.ok
            (join_thread { ctx with threads := swapRemove ctx.threads i } th)
      | RecvResult.Progress p =>
          match process_threads_go ctx rest with
          | PanicOr.panic => PanicOr.panic
          | PanicOr.ok (r, c, tr) =>
              PanicOr.ok (r, c, Effect.drawProgress p :: tr)
      | RecvResult.Timeout => process_threads_go ctx rest

/-- `process_threads context view`: one poll pass over the tracked
operations. -/
def process_threads (ctx : JoshutoContext) :
    PanicOr (Except Nat Unit × JoshutoContext × List Effect) :=
  process_threads_go ctx (List.range ctx.threads.length)

/-- Result component of a poll pass (`Except.ok ()` on the unreachable
panic outcome). -/
def passResult (ctx : JoshutoContext) : Except Nat Unit :=
  match process_threads ctx with
  | PanicOr.ok (r, _, _) => r
  | PanicOr.panic => Except.ok ()

/-- Context after a poll pass (the unchanged context on the unreachable
panic outcome). -/
def passCtx (ctx : JoshutoContext) : JoshutoContext :=
  match process_threads ctx with
  | PanicOr.ok (_, c, _) => c
  | PanicOr.panic => ctx

/-- Effect trace of a poll pass (empty on the unreachable panic
outcome). -/
def passTrace (ctx : JoshutoContext) : List Effect :=
  match process_threads ctx with
  | PanicOr.ok (_, _, tr) => tr
  | PanicOr.panic => []

/-- True exactly on worker-join effects. -/
def isJoinEff : Effect → Bool
  | Effect.joinCall _ _ => true
  | _ => false

/-- True exactly on progress-drawing effects. -/
def isProgressEff : Effect → Bool
  | Effect.drawProgress _ => true
  | _ => false

/-- True exactly on `ReloadDirList::reload` call effects. -/
def isReloadEff : Effect → Bool
  | Effect.reloadCall _ => true
  | _ => false

/-- Number of worker joins recorded in a trace. -/
def countJoin (tr : List Effect) : Nat := tr.countP isJoinEff

/-- Number of progress drawings recorded in a trace. -/
def countProgress (tr : List Effect) : Nat := tr.countP isProgressEff

/-- `resize_handler context view` (`src/run.rs` lines 121-128): redraws
the tab bar and refreshes the active tab's panel; the source indexes
`context.tabs[context.curr_tab_index]` directly, which panics when the
index is out of bounds. This function is defined in the source but is
never invoked by `run`. -/
def resize_handler (ctx : JoshutoContext) : PanicOr (List Effect) :=
  match ctx.tabs.get? ctx.curr_tab_index with
  | none => PanicOr.panic
  | some _ =>
      PanicOr.ok [Effect.redrawTabView, Effect.refreshTab ctx.curr_tab_index]

/-- One iteration of the `while !context.exit` body of `run`
(`src/run.rs` lines 163-198). `exec` models the opaque
`keycommand.execute(&mut context, &view)` dispatch (commands live
outside `src/`): it may mutate the context and may fail with a cause.
`ev` is what `events.next()` returned (`none` for `Err(_)`, in which
case the body does nothing), and `chord` is the stream of further
events available to `recurse_get_keycommand` for a composite binding.
An input key is resolved through the keymap: a resolved command is
executed, with a failure printed as a status message; an unresolved key
prints "Unknown keycode"; any non-input event falls to the catch-all
arm, which also prints "Unknown keycode". The iteration performs no
other work: in this source `process_threads` and `resize_handler` are
never called from `run`. -/
def run_iter (exec : JoshutoCommand → JoshutoContext → Except Nat JoshutoContext)
    (keymap_t : List (Key × CommandKeybind)) (ev : Option Event)
    (chord : List Event) (ctx : JoshutoContext) :
    JoshutoContext × List Effect :=
  match ev with
  | none => (ctx, [])
  | some (Event.Input key) =>
    match run_resolve keymap_t key chord with
    | none => (ctx, [Effect.unknownKeycodeMsg])
    | some s =>
      match exec s ctx with
      | Except.error e => (ctx, [Effect.execCmd s, Effect.cmdErrMsg e])
      | Except.ok ctx2 => (ctx2, [Effect.execCmd s])
  | some _ => (ctx, [Effect.unknownKeycodeMsg])

/-- Iterates `process_threads` a given number of times, threading the
context and concatenating the effect traces (the context is left
unchanged on the unreachable panic outcome). -/
def iterate_passes : Nat → JoshutoContext → JoshutoContext × List Effect
  | 0, ctx => (ctx, [])
  | n + 1, ctx =>
    match process_threads ctx with
    | PanicOr.panic => (ctx, [])
    | PanicOr.ok (_, ctx1, tr) =>
      match iterate_passes n ctx1 with
      | (ctx2, tr2) => (ctx2, tr ++ tr2)

/-- True exactly on panel-refresh effects. -/
def isRefreshEff : Effect → Bool
  | Effect.refreshTab _ => true
  | _ => false

/-- True exactly on status-message effects (error text printed to the
bottom panel). -/
def isMsgEff : Effect → Bool
  | Effect.joinErrMsg _ => true
  | Effect.cmdErrMsg _ => true
  | Effect.unknownKeycodeMsg => true
  | _ => false

/-- True on the reload effect at index `i`. -/
def isReloadAt (i : Nat) : Effect → Bool
  | Effect.reloadCall j => decide (j = i)
  | _ => false

/-- True when the effect is not a reload call at an index outside the
first `n` indices (so `tr.all (reloadWithin n)` says every reload call
in `tr` targets a valid index of an `n`-element tab list). -/
def reloadWithin (n : Nat) : Effect → Bool
  | Effect.reloadCall j => decide (j < n)
  | _ => true

/-- Number of panel refreshes recorded in a trace. -/
def countRefresh (tr : List Effect) : Nat := tr.countP isRefreshEff

lemma swapRemove_length {α : Type} (l : List α) (i : Nat) (h : l ≠ []) :
    (swapRemove l i).length = l.length - 1 := by
  unfold swapRemove
  rw [List.getLast?_eq_getLast_of_ne_nil h]
  simp [List.length_dropLast, List.length_set]

lemma mem_swapRemove {α : Type} {l : List α} {i : Nat} {x : α}
    (hx : x ∈ swapRemove l i) : x ∈ l := by
  unfold swapRemove at hx
  cases hl : l.getLast? with
  | none => rw [hl] at hx; exact hx
  | some last =>
      rw [hl] at hx
      have hx2 : x ∈ l.set i last := (List.dropLast_sublist _).mem hx
      rcases List.mem_or_eq_of_mem_set hx2 with h | h
      · exact h
      · subst h
        rcases List.mem_getLast?_eq_getLast (l := l) (x := x) hl with ⟨hne, hxl⟩
        rw [hxl]
        exact List.getLast_mem hne

lemma ReloadDirList.reload_ok_shape {index : Nat} {ctx ctx2 : JoshutoContext}
    (h : ReloadDirList.reload index ctx = Except.ok ctx2) :
    ∃ t, ctx.tabs.get? index = some t ∧ t.reloadErr = none ∧
      ctx2 = { ctx with
        tabs := ctx.tabs.set index { t with listing := t.diskListing } } := by
  unfold ReloadDirList.reload at h
  cases hg : ctx.tabs.get? index with
  | none => rw [hg] at h; exact absurd h (by simp)
  | some t =>
      rw [hg] at h
      dsimp only at h
      cases he : t.reloadErr with
      | some e => rw [he] at h; exact absurd h (by simp)
      | none =>
          rw [he] at h
          refine ⟨t, rfl, he, ?_⟩
          rw [he]
          injection h with h2
          exact h2.symm

lemma reload_tab_threads (index : Nat) (ctx : JoshutoContext) :
    (reload_tab index ctx).2.1.threads = ctx.threads := by
  unfold reload_tab
  cases hr : ReloadDirList.reload index ctx with
  | error e => rfl
  | ok ctx2 =>
      rcases ReloadDirList.reload_ok_shape hr with ⟨t, _, _, hshape⟩
      subst hshape
      by_cases hi : index = ctx.curr_tab_index <;> simp [hi]

lemma reload_tab_tabs_length (index : Nat) (ctx : JoshutoContext) :
    (reload_tab index ctx).2.1.tabs.length = ctx.tabs.length := by
  unfold reload_tab
  cases hr : ReloadDirList.reload index ctx with
  | error e => rfl
  | ok ctx2 =>
      rcases ReloadDirList.reload_ok_shape hr with ⟨t, _, _, hshape⟩
      subst hshape
      by_cases hi : index = ctx.curr_tab_index <;> simp [hi, List.length_set]

lemma reload_tab_curr (index : Nat) (ctx : JoshutoContext) :
    (reload_tab index ctx).2.1.curr_tab_index = ctx.curr_tab_index := by
  unfold reload_tab
  cases hr : ReloadDirList.reload index ctx with
  | error e => rfl
  | ok ctx2 =>
      rcases ReloadDirList.reload_ok_shape hr with ⟨t, _, _, hshape⟩
      subst hshape
      by_cases hi : index = ctx.curr_tab_index <;> simp [hi]

lemma reload_tab_trace (index : Nat) (ctx : JoshutoContext) :
    (reload_tab index ctx).2.2 = [Effect.reloadCall index] ∨
    (reload_tab index ctx).2.2 =
      [Effect.reloadCall index, Effect.refreshTab index] := by
  unfold reload_tab
  cases hr : ReloadDirList.reload index ctx with
  | error e => exact Or.inl rfl
  | ok ctx2 =>
      by_cases hi : index = ctx2.curr_tab_index <;> simp [hi]

lemma countJoin_reload_tab (index : Nat) (ctx : JoshutoContext) :
    countJoin (reload_tab index ctx).2.2 = 0 := by
  rcases reload_tab_trace index ctx with h | h <;>
    simp [h, countJoin, List.countP, List.countP.go, isJoinEff]

lemma countProgress_reload_tab (index : Nat) (ctx : JoshutoContext) :
    countProgress (reload_tab index ctx).2.2 = 0 := by
  rcases reload_tab_trace index ctx with h | h <;>
    simp [h, countProgress, List.countP, List.countP.go, isProgressEff]

lemma countMsg_reload_tab (index : Nat) (ctx : JoshutoContext) :
    (reload_tab index ctx).2.2.countP isMsgEff = 0 := by
  rcases reload_tab_trace index ctx with h | h <;>
    simp [h, List.countP, List.countP.go, isMsgEff]

lemma join_reload_dest_threads (src dest : Nat)
    (s1 : Except Nat Unit × JoshutoContext × List Effect) :
    (join_reload_dest src dest s1).2.1.threads = s1.2.1.threads := by
  rcases s1 with ⟨r1, ctx1, tr1⟩
  cases r1 with
  | error e => rfl
  | ok u =>
      by_cases hd : dest ≠ src ∧ dest < ctx1.tabs.length
      · rcases h2 : reload_tab dest ctx1 with ⟨r2, ctx2, tr2⟩
        have hth2 : ctx2.threads = ctx1.threads := by
          have := reload_tab_threads dest ctx1
          rw [h2] at this
          exact this
        simp [join_reload_dest, hd, h2, hth2]
      · simp [join_reload_dest, hd]

lemma join_thread_threads (ctx : JoshutoContext) (th : FileOperationThread) :
    (join_thread ctx th).2.1.threads = ctx.threads := by
  unfold join_thread
  cases th.joinResult with
  | JoinErr e => rfl
  | JoinOk =>
      by_cases hs : th.tab_src < ctx.tabs.length
      · rw [if_pos hs]
        rw [join_reload_dest_threads]
        exact reload_tab_threads th.tab_src ctx
      · rw [if_neg hs]
        rw [join_reload_dest_threads]

lemma countP_join_reload_dest (p : Effect → Bool) (src dest : Nat)
    (s1 : Except Nat Unit × JoshutoContext × List Effect)
    (hp : ∀ i c, (reload_tab i c).2.2.countP p = 0) (hs1 : s1.2.2.countP p = 0)
    (hj : p (Effect.joinCall src dest) = false) :
    (join_reload_dest src dest s1).2.2.countP p = 0 := by
  rcases s1 with ⟨r1, ctx1, tr1⟩
  cases r1 with
  | error e => simpa [join_reload_dest, List.countP_cons, hj] using hs1
  | ok u =>
      by_cases hd : dest ≠ src ∧ dest < ctx1.tabs.length
      · rcases h2 : reload_tab dest ctx1 with ⟨r2, ctx2, tr2⟩
        have htr2 : tr2.countP p = 0 := by
          have := hp dest ctx1
          rw [h2] at this
          exact this
        simp only [join_reload_dest]
        rw [if_pos hd, h2]
        simp [List.countP_cons, List.countP_append, hj, htr2]
        simpa using hs1
      · simp only [join_reload_dest]
        rw [if_neg hd]
        simp [List.countP_cons, hj]
        simpa using hs1

lemma countProgress_join_thread (ctx : JoshutoContext)
    (th : FileOperationThread) :
    countProgress (join_thread ctx th).2.2 = 0 := by
  unfold join_thread
  cases th.joinResult with
  | JoinErr e => simp [countProgress, List.countP, List.countP.go, isProgressEff]
  | JoinOk =>
      apply countP_join_reload_dest
      · exact countProgress_reload_tab
      · by_cases hs : th.tab_src < ctx.tabs.length
        · rw [if_pos hs]; exact countProgress_reload_tab th.tab_src ctx
        · rw [if_neg hs]; rfl
      · rfl

lemma countJoin_join_reload_dest (src dest : Nat)
    (s1 : Except Nat Unit × JoshutoContext × List Effect)
    (hs1 : countJoin s1.2.2 = 0) :
    countJoin (join_reload_dest src dest s1).2.2 = 1 := by
  rcases s1 with ⟨r1, ctx1, tr1⟩
  cases r1 with
  | error e =>
      simpa [join_reload_dest, countJoin, List.countP_cons, isJoinEff] using hs1
  | ok u =>
      by_cases hd : dest ≠ src ∧ dest < ctx1.tabs.length
      · rcases h2 : reload_tab dest ctx1 with ⟨r2, ctx2, tr2⟩
        have htr2 : countJoin tr2 = 0 := by
          have := countJoin_reload_tab dest ctx1
          rw [h2] at this
          exact this
        simp only [join_reload_dest]
        rw [if_pos hd, h2]
        simp only [countJoin, List.countP_cons, List.countP_append] at hs1 htr2 ⊢
        simp [isJoinEff, hs1, htr2]
      · simp only [join_reload_dest]
        rw [if_neg hd]
        simp only [countJoin, List.countP_cons] at hs1 ⊢
        simp [isJoinEff, hs1]

lemma countJoin_join_thread (ctx : JoshutoContext) (th : FileOperationThread) :
    countJoin (join_thread ctx th).2.2 = 1 := by
  unfold join_thread
  cases th.joinResult with
  | JoinErr e => simp [countJoin, List.countP, List.countP.go, isJoinEff]
  | JoinOk =>
      apply countJoin_join_reload_dest
      by_cases hs : th.tab_src < ctx.tabs.length
      · rw [if_pos hs]; exact countJoin_reload_tab th.tab_src ctx
      · rw [if_neg hs]; rfl

lemma process_threads_go_no_panic (ctx : JoshutoContext) :
    ∀ l : List Nat, (∀ i ∈ l, i < ctx.threads.length) →
      (process_threads_go ctx l).isPanic = false := by
  intro l
  induction l with
  | nil => intro _; rfl
  | cons i rest ih =>
      intro hb
      have hi : i < ctx.threads.length := hb i (List.mem_cons_self i rest)
      rcases List.get?_eq_get hi with hg
      rw [process_threads_go, hg]
      dsimp only
      cases hrecv : (ctx.threads.get ⟨i, hi⟩).recvResult with
      | Disconnected => rfl
      | Progress p =>
          have := ih (fun j hj => hb j (List.mem_cons_of_mem i hj))
          cases hgo : process_threads_go ctx rest with
          | panic => rw [hgo] at this; exact absurd this (by simp [PanicOr.isPanic])
          | ok triple => rcases triple with ⟨r, c, tr⟩; rfl
      | Timeout => exact ih (fun j hj => hb j (List.mem_cons_of_mem i hj))

lemma process_threads_go_len (ctx : JoshutoContext) :
    ∀ (l : List Nat) (r : Except Nat Unit) (c : JoshutoContext)
      (tr : List Effect),
      process_threads_go ctx l = PanicOr.ok (r, c, tr) →
      c.threads.length = ctx.threads.length ∨
        c.threads.length + 1 = ctx.threads.length := by
  intro l
  induction l with
  | nil =>
      intro r c tr h
      rw [process_threads_go] at h
      injection h with h2
      rw [show c = ctx from congrArg (fun t => t.2.1) h2.symm]
      exact Or.inl rfl
  | cons i rest ih =>
      intro r c tr h
      rw [process_threads_go] at h
      cases hg : ctx.threads.get? i with
      | none => rw [hg] at h; exact absurd h (by simp)
      | some th =>
          rw [hg] at h
          dsimp only at h
          cases hrecv : th.recvResult with
          | Disconnected =>
              rw [hrecv] at h
              injection h with h2
              have hc : c =
                  (join_thread
                    { ctx with threads := swapRemove ctx.threads i } th).2.1 :=
                congrArg (fun t => t.2.1) h2.symm
              have hne : ctx.threads ≠ [] := by
                intro hnil
                rw [hnil] at hg
                exact absurd hg (by simp)
              have hlen : 1 ≤ ctx.threads.length :=
                Nat.one_le_iff_ne_zero.mpr
                  (fun h0 => hne (List.length_eq_zero.mp h0))
              rw [hc, join_thread_threads]
              right
              show (swapRemove ctx.threads i).length + 1 = ctx.threads.length
              rw [swapRemove_length ctx.threads i hne]
              omega
          | Progress p =>
              rw [hrecv] at h
              cases hgo : process_threads_go ctx rest with
              | panic => rw [hgo] at h; exact absurd h (by simp)
              | ok triple =>
                  rcases triple with ⟨r2, c2, tr2⟩
                  rw [hgo] at h
                  injection h with h2
                  have hc : c = c2 := congrArg (fun t => t.2.1) h2.symm
                  rw [hc]
                  exact ih r2 c2 tr2 hgo
          | Timeout =>
              rw [hrecv] at h
              exact ih r c tr h

lemma process_threads_go_countJoin (ctx : JoshutoContext) :
    ∀ (l : List Nat) (r : Except Nat Unit) (c : JoshutoContext)
      (tr : List Effect),
      process_threads_go ctx l = PanicOr.ok (r, c, tr) → countJoin tr ≤ 1 := by
  intro l
  induction l with
  | nil =>
      intro r c tr h
      rw [process_threads_go] at h
      injection h with h2
      have : tr = [] := congrArg (fun t => t.2.2) h2.symm
      simp [this, countJoin]
  | cons i rest ih =>
      intro r c tr h
      rw [process_threads_go] at h
      cases hg : ctx.threads.get? i with
      | none => rw [hg] at h; exact absurd h (by simp)
      | some th =>
          rw [hg] at h
          dsimp only at h
          cases hrecv : th.recvResult with
          | Disconnected =>
              rw [hrecv] at h
              injection h with h2
              have htr : tr =
                  (join_thread
                    { ctx with threads := swapRemove ctx.threads i } th).2.2 :=
                congrArg (fun t => t.2.2) h2.symm
              rw [htr, countJoin_join_thread]
          | Progress p =>
              rw [hrecv] at h
              cases hgo : process_threads_go ctx rest with
              | panic => rw [hgo] at h; exact absurd h (by simp)
              | ok triple =>
                  rcases triple with ⟨r2, c2, tr2⟩
                  rw [hgo] at h
                  injection h with h2
                  have htr : tr = Effect.drawProgress p :: tr2 :=
                    congrArg (fun t => t.2.2) h2.symm
                  have := ih r2 c2 tr2 hgo
                  rw [htr]
                  simpa [countJoin, List.countP_cons, isJoinEff] using this
          | Timeout =>
              rw [hrecv] at h
              exact ih r c tr h

lemma process_threads_go_no_disc (ctx : JoshutoContext)
    (hall : ∀ th ∈ ctx.threads, th.recvResult ≠ RecvResult.Disconnected) :
    ∀ l : List Nat, (∀ i ∈ l, i < ctx.threads.length) →
      ∃ tr, process_threads_go ctx l = PanicOr.ok (Except.ok (), ctx, tr) := by
  intro l
  induction l with
  | nil => intro _; exact ⟨[], rfl⟩
  | cons i rest ih =>
      intro hb
      have hi : i < ctx.threads.length := hb i (List.mem_cons_self i rest)
      rcases List.get?_eq_get hi with hg
      have hmem : ctx.threads.get ⟨i, hi⟩ ∈ ctx.threads := List.get_mem _ _ _
      rcases ih (fun j hj => hb j (List.mem_cons_of_mem i hj)) with ⟨tr, hgo⟩
      rw [process_threads_go, hg]
      dsimp only
      cases hrecv : (ctx.threads.get ⟨i, hi⟩).recvResult with
      | Disconnected => exact absurd hrecv (hall _ hmem)
      | Progress p =>
          rw [hgo]
          exact ⟨Effect.drawProgress p :: tr, rfl⟩
      | Timeout => exact ⟨tr, hgo⟩

lemma pass_first_disconnected (ctx : JoshutoContext)
    (th : FileOperationThread) (rest : List FileOperationThread)
    (hth : ctx.threads = th :: rest)
    (hd : th.recvResult = RecvResult.Disconnected) :
    process_threads ctx =
      PanicOr.ok
        (join_thread { ctx with threads := swapRemove ctx.threads 0 } th) := by
  unfold process_threads
  rw [show ctx.threads.length = rest.length + 1 by rw [hth]; rfl]
  rw [List.range_succ_eq_map]
  rw [process_threads_go]
  rw [show ctx.threads.get? 0 = some th by simp [hth]]
  dsimp only
  rw [hd]

lemma recurse_timeout_neg_one :
    ∀ (evs : List Event) (m : List (Key × CommandKeybind)),
      (recurse_get_keycommand m evs).2 = -1 := by
  intro evs
  induction evs with
  | nil => intro m; rfl
  | cons e rest ih =>
      intro m
      cases e with
      | Input k =>
          cases k with
          | Char c =>
              rw [recurse_get_keycommand]
              cases hl : lookupKeymap m (Key.Char c) with
              | none => rfl
              | some kb =>
                  cases kb with
                  | SimpleKeybind s => rfl
                  | CompositeKeybind m2 => exact ih m2
          | Esc => rfl
          | other n => rfl
      | Resize => rfl
      | Tick => rfl

lemma recurse_follow {m : List (Key × CommandKeybind)} {ks : List Key}
    {c : JoshutoCommand} (h : ReachesSimple m ks c)
    (hc : ∀ x ∈ ks, isChar x = true) (rest : List Event) :
    (recurse_get_keycommand m (ks.map Event.Input ++ rest)).1 = some c := by
  induction h with
  | simple m k c hl =>
      have hk : isChar k = true := hc k (List.mem_singleton_self k)
      cases k with
      | Char ch =>
          rw [List.map_cons, List.map_nil, List.singleton_append,
            recurse_get_keycommand]
          rw [hl]
      | Esc => exact absurd hk (by simp [isChar])
      | other n => exact absurd hk (by simp [isChar])
  | comp m k m2 ks c hl hr ih =>
      have hk : isChar k = true := hc k (List.mem_cons_self k ks)
      cases k with
      | Char ch =>
          rw [List.map_cons, List.cons_append, recurse_get_keycommand]
          rw [hl]
          exact ih (fun x hx => hc x (List.mem_cons_of_mem _ hx))
      | Esc => exact absurd hk (by simp [isChar])
      | other n => exact absurd hk (by simp [isChar])

lemma recurse_nonchar (m : List (Key × CommandKeybind)) (k : Key)
    (rest : List Event) (hk : isChar k = false) :
    (recurse_get_keycommand m (Event.Input k :: rest)).1 = none := by
  cases k with
  | Char c => exact absurd hk (by simp [isChar])
  | Esc => rfl
  | other n => rfl

lemma recurse_unmapped (m : List (Key × CommandKeybind)) (c : Char)
    (rest : List Event) (hl : lookupKeymap m (Key.Char c) = none) :
    (recurse_get_keycommand m (Event.Input (Key.Char c) :: rest)).1 = none := by
  rw [recurse_get_keycommand]
  rw [hl]

lemma run_iter_trace_shape
    (exec : JoshutoCommand → JoshutoContext → Except Nat JoshutoContext)
    (km : List (Key × CommandKeybind)) (ev : Option Event)
    (chord : List Event) (ctx : JoshutoContext) :
    (run_iter exec km ev chord ctx).2 = [] ∨
    (run_iter exec km ev chord ctx).2 = [Effect.unknownKeycodeMsg] ∨
    (∃ s, (run_iter exec km ev chord ctx).2 = [Effect.execCmd s]) ∨
    (∃ s e, (run_iter exec km ev chord ctx).2 =
      [Effect.execCmd s, Effect.cmdErrMsg e]) := by
  cases ev with
  | none => exact Or.inl rfl
  | some e =>
      cases e with
      | Input key =>
          rw [run_iter]
          cases hr : run_resolve km key chord with
          | none => exact Or.inr (Or.inl rfl)
          | some s =>
              dsimp only
              cases he : exec s ctx with
              | error err => exact Or.inr (Or.inr (Or.inr ⟨s, err, rfl⟩))
              | ok ctx2 => exact Or.inr (Or.inr (Or.inl ⟨s, rfl⟩))
      | Resize => exact Or.inr (Or.inl rfl)
      | Tick => exact Or.inr (Or.inl rfl)

/-- Claim C1: the claim states that every iteration of the `Running`
loop in `run` performs exactly one `process_threads` poll pass. The code
does not: `process_threads` is a private function of `src/run.rs` that
`run` never calls, so an iteration performs zero poll passes — its
effect trace never contains a worker join or a progress drawing (the
effects a poll pass necessarily emits for a disconnected or reporting
channel), and an iteration whose `events.next()` yields no event leaves
the context, including the tracked-operation list, entirely unchanged. -/
theorem c1_run_iter_performs_no_poll_pass :
    ∀ (exec : JoshutoCommand → JoshutoContext → Except Nat JoshutoContext)
      (km : List (Key × CommandKeybind)) (ev : Option Event)
      (chord : List Event) (ctx : JoshutoContext),
      countJoin (run_iter exec km ev chord ctx).2 = 0 ∧
      countProgress (run_iter exec km ev chord ctx).2 = 0 ∧
      run_iter exec km none chord ctx = (ctx, []) := by
  intro exec km ev chord ctx
  refine ⟨?_, ?_, rfl⟩ <;>
    rcases run_iter_trace_shape exec km ev chord ctx with
      h | h | ⟨s, h⟩ | ⟨s, e, h⟩ <;>
      simp [h, countJoin, countProgress, List.countP, List.countP.go,
        isJoinEff, isProgressEff]

/-- Claim C2: the claim states that a resize event recomputes panel
geometry and refreshes the active tab. The code instead lets every
non-input event fall to the catch-all arm of the `match` in `run`,
which prints an "Unknown keycode" status message and nothing else;
`resize_handler`, which would redraw the tab bar and refresh the active
tab's panel, is defined in `src/run.rs` but never called by `run`. -/
theorem c2_resize_treated_as_unknown_keycode :
    ∀ (exec : JoshutoCommand → JoshutoContext → Except Nat JoshutoContext)
      (km : List (Key × CommandKeybind)) (chord : List Event)
      (ctx : JoshutoContext),
      run_iter exec km (some Event.Resize) chord ctx =
        (ctx, [Effect.unknownKeycodeMsg]) ∧
      (ctx.curr_tab_index < ctx.tabs.length →
        resize_handler ctx =
          PanicOr.ok
            [Effect.redrawTabView, Effect.refreshTab ctx.curr_tab_index]) := by
  intro exec km chord ctx
  refine ⟨rfl, fun h => ?_⟩
  unfold resize_handler
  rw [List.get?_eq_get h]

/-- Witness for claim C2's theorem at a concrete one-tab context. -/
theorem c2_resize_witness :
    run_iter (fun _ c => Except.ok c) [] (some Event.Resize) []
        { exit := false,
          tabs := [{ listing := 0, diskListing := 0, reloadErr := none }],
          curr_tab_index := 0, threads := [] } =
      ({ exit := false,
         tabs := [{ listing := 0, diskListing := 0, reloadErr := none }],
         curr_tab_index := 0, threads := [] },
       [Effect.unknownKeycodeMsg]) ∧
    resize_handler
        { exit := false,
          tabs := [{ listing := 0, diskListing := 0, reloadErr := none }],
          curr_tab_index := 0, threads := [] } =
      PanicOr.ok [Effect.redrawTabView, Effect.refreshTab 0] :=
  ⟨(c2_resize_treated_as_unknown_keycode (fun _ c => Except.ok c) [] []
      { exit := false,
        tabs := [{ listing := 0, diskListing := 0, reloadErr := none }],
        curr_tab_index := 0, threads := [] }).1,
   (c2_resize_treated_as_unknown_keycode (fun _ c => Except.ok c) [] []
      { exit := false,
        tabs := [{ listing := 0, diskListing := 0, reloadErr := none }],
        curr_tab_index := 0, threads := [] }).2 (by decide)⟩

/-- Claim C3, counterexample: the claim as stated is false in both
directions at the top level and below it. A non-character key (here
`Key.other 0`, standing for an arrow key) bound directly at the root is
a "deviation" per the claim and should yield no command, yet the
resolver returns its bound command 5; conversely the sequence
`[Char a, other 0]` exactly follows a path through a Composite node to
a Simple node binding 7, yet the resolver returns none because chord
continuations refuse non-character keys before consulting the mapping. -/
theorem c3_counterexample :
    run_resolve [(Key.other 0, CommandKeybind.SimpleKeybind 5)]
        (Key.other 0) [] = some 5 ∧
    run_resolve
        [(Key.Char 'a',
          CommandKeybind.CompositeKeybind
            [(Key.other 0, CommandKeybind.SimpleKeybind 7)])]
        (Key.Char 'a') [Event.Input (Key.other 0)] = none :=
  ⟨rfl, rfl⟩

/-- Claim C3, amended: a key sequence resolves to a Simple node's
command when its continuation keys (all keys after the first) are
character keys following Composite nodes to that Simple node — the
first key is unrestricted, since the top-level lookup in `run` accepts
any key; and resolution yields no command when the first key is
unmapped, or when a chord continuation key is Escape or any other
non-character key (at any depth, before consulting the mapping), or
when a chord continuation character key is unmapped at its depth. -/
theorem c3_resolver_amended :
    (∀ (km : List (Key × CommandKeybind)) (k : Key) (ks : List Key)
       (c : JoshutoCommand) (rest : List Event),
       ReachesSimple km (k :: ks) c → (∀ x ∈ ks, isChar x = true) →
       run_resolve km k (ks.map Event.Input ++ rest) = some c) ∧
    (∀ (km : List (Key × CommandKeybind)) (k : Key) (chord : List Event),
       lookupKeymap km k = none → run_resolve km k chord = none) ∧
    (∀ (m : List (Key × CommandKeybind)) (k : Key) (rest : List Event),
       isChar k = false →
       (recurse_get_keycommand m (Event.Input k :: rest)).1 = none) ∧
    (∀ (m : List (Key × CommandKeybind)) (c2 : Char) (rest : List Event),
       lookupKeymap m (Key.Char c2) = none →
       (recurse_get_keycommand m (Event.Input (Key.Char c2) :: rest)).1 =
         none) := by
  refine ⟨?_, ?_, ?_, ?_⟩
  · intro km k ks c rest h hc
    cases h with
    | simple _ _ _ hl =>
        unfold run_resolve
        rw [hl]
    | comp _ _ m2 _ _ hl hr =>
        unfold run_resolve
        rw [hl]
        exact recurse_follow hr hc rest
  · intro km k chord hl
    unfold run_resolve
    rw [hl]
  · intro m k rest hk
    exact recurse_nonchar m k rest hk
  · intro m c2 rest hl
    exact recurse_unmapped m c2 rest hl

/-- Witness for claim C3's amended theorem: a two-key chord
`a` then `b` resolves to command 3; an unmapped top-level key, an
Escape continuation, and an unmapped character continuation all
resolve to nothing. -/
theorem c3_resolver_amended_witness :
    run_resolve
        [(Key.Char 'a',
          CommandKeybind.CompositeKeybind
            [(Key.Char 'b', CommandKeybind.SimpleKeybind 3)])]
        (Key.Char 'a') ([Key.Char 'b'].map Event.Input ++ []) = some 3 ∧
    run_resolve [(Key.Char 'a', CommandKeybind.SimpleKeybind 3)]
        (Key.Char 'z') [] = none ∧
    (recurse_get_keycommand [(Key.Char 'b', CommandKeybind.SimpleKeybind 3)]
        [Event.Input Key.Esc]).1 = none ∧
    (recurse_get_keycommand [(Key.Char 'b', CommandKeybind.SimpleKeybind 3)]
        [Event.Input (Key.Char 'z')]).1 = none :=
  ⟨c3_resolver_amended.1 _ (Key.Char 'a') [Key.Char 'b'] 3 []
      (ReachesSimple.comp
        [(Key.Char 'a',
          CommandKeybind.CompositeKeybind
            [(Key.Char 'b', CommandKeybind.SimpleKeybind 3)])]
        (Key.Char 'a') [(Key.Char 'b', CommandKeybind.SimpleKeybind 3)]
        [Key.Char 'b'] 3 (by simp [lookupKeymap])
        (ReachesSimple.simple [(Key.Char 'b', CommandKeybind.SimpleKeybind 3)]
          (Key.Char 'b') 3 (by simp [lookupKeymap])))
      (by simp [isChar]),
   c3_resolver_amended.2.1 _ (Key.Char 'z') [] (by simp [lookupKeymap]),
   c3_resolver_amended.2.2.1 _ Key.Esc [] (by simp [isChar]),
   c3_resolver_amended.2.2.2 _ 'z' [] (by simp [lookupKeymap])⟩

/-- Claim C8, counterexample: the claim states that aborting a chord
with Escape restores the normal timeout-based (non-negative) input
mode before returning. On Escape the resolver does return no command,
but the ncurses timeout in effect at return is `-1` — the indefinite
blocking value set on entry — which is negative, so no timeout-based
mode has been restored. -/
theorem c8_counterexample :
    recurse_get_keycommand [(Key.Char 'a', CommandKeybind.SimpleKeybind 1)]
        [Event.Input Key.Esc] = (none, -1) ∧ (-1 : Int) < 0 :=
  ⟨rfl, by decide⟩

/-- Claim C8, amended: pressing Escape at a Composite-node menu yields
no command, but the resolver does not restore the timeout-based input
mode: the source never calls `ncurses::timeout` after the `-1` at
entry, so on every return path — Escape included — the timeout in
effect is still `-1` (indefinite blocking) and persists after
resolution ends. -/
theorem c8_timeout_persists :
    (∀ (m : List (Key × CommandKeybind)) (rest : List Event),
       (recurse_get_keycommand m (Event.Input Key.Esc :: rest)).1 = none) ∧
    (∀ (m : List (Key × CommandKeybind)) (evs : List Event),
       (recurse_get_keycommand m evs).2 = -1) :=
  ⟨fun _ _ => rfl, fun m evs => recurse_timeout_neg_one evs m⟩

lemma reload_tab_eq (ctx : JoshutoContext) (i : Nat) (t : JoshutoTab)
    (hg : ctx.tabs.get? i = some t) (he : t.reloadErr = none) :
    reload_tab i ctx =
      (Except.ok (),
       { ctx with tabs := ctx.tabs.set i { t with listing := t.diskListing } },
       if i = ctx.curr_tab_index then
         [Effect.reloadCall i, Effect.refreshTab i]
       else [Effect.reloadCall i]) := by
  unfold reload_tab ReloadDirList.reload
  rw [hg]
  dsimp only
  rw [he]
  dsimp only
  by_cases hi : i = ctx.curr_tab_index
  · rw [if_pos hi, if_pos]
    exact hi
  · rw [if_neg hi, if_neg]
    exact hi

lemma reload_tab_err (ctx : JoshutoContext) (i : Nat) (t : JoshutoTab)
    (e : Nat) (hg : ctx.tabs.get? i = some t) (he : t.reloadErr = some e) :
    reload_tab i ctx = (Except.error e, ctx, [Effect.reloadCall i]) := by
  unfold reload_tab ReloadDirList.reload
  rw [hg]
  dsimp only
  rw [he]

/-- Claim C7: `reload_tab` refreshes the tab's panel exactly when the
reloaded index is the current tab index. When the listing re-read
succeeds, reloading the active tab re-reads the listing and then
immediately refreshes its panel, while reloading a non-active tab
updates only that tab's cached listing, changes no other state, and
emits no refresh; a non-active reload emits no panel refresh even when
the re-read fails. -/
theorem c7_reload_refresh_active_only :
    (∀ (ctx : JoshutoContext) (i : Nat) (t : JoshutoTab),
       ctx.tabs.get? i = some t → t.reloadErr = none →
       i = ctx.curr_tab_index →
       reload_tab i ctx =
         (Except.ok (),
          { ctx with
            tabs := ctx.tabs.set i { t with listing := t.diskListing } },
          [Effect.reloadCall i, Effect.refreshTab i])) ∧
    (∀ (ctx : JoshutoContext) (i : Nat) (t : JoshutoTab),
       ctx.tabs.get? i = some t → t.reloadErr = none →
       i ≠ ctx.curr_tab_index →
       reload_tab i ctx =
         (Except.ok (),
          { ctx with
            tabs := ctx.tabs.set i { t with listing := t.diskListing } },
          [Effect.reloadCall i])) ∧
    (∀ (ctx : JoshutoContext) (i : Nat), i ≠ ctx.curr_tab_index →
       countRefresh (reload_tab i ctx).2.2 = 0) := by
  refine ⟨?_, ?_, ?_⟩
  · intro ctx i t hg he hi
    rw [reload_tab_eq ctx i t hg he, if_pos hi]
  · intro ctx i t hg he hi
    rw [reload_tab_eq ctx i t hg he, if_neg hi]
  · intro ctx i hi
    rcases reload_tab_trace i ctx with h | h
    · simp [h, countRefresh, List.countP, List.countP.go, isRefreshEff]
    · exfalso
      unfold reload_tab at h
      cases hr : ReloadDirList.reload i ctx with
      | error e => rw [hr] at h; exact absurd h (by simp)
      | ok ctx2 =>
          rcases ReloadDirList.reload_ok_shape hr with ⟨t, _, _, hshape⟩
          rw [hr] at h
          dsimp only at h
          by_cases hic : i = ctx2.curr_tab_index
          · have : ctx2.curr_tab_index = ctx.curr_tab_index := by
              rw [hshape]
            exact hi (hic.trans this)
          · rw [if_neg hic] at h
            exact absurd h (by simp)

/-- Witness for claim C7's theorem: reloading the active tab 0 of a
two-tab context refreshes its panel; reloading the non-active tab 1
updates only its cached listing and refreshes nothing. -/
theorem c7_reload_refresh_witness :
    reload_tab 0
        { exit := false,
          tabs := [{ listing := 1, diskListing := 2, reloadErr := none },
                   { listing := 3, diskListing := 4, reloadErr := none }],
          curr_tab_index := 0, threads := [] } =
      (Except.ok (),
       { exit := false,
         tabs := [{ listing := 2, diskListing := 2, reloadErr := none },
                  { listing := 3, diskListing := 4, reloadErr := none }],
         curr_tab_index := 0, threads := [] },
       [Effect.reloadCall 0, Effect.refreshTab 0]) ∧
    reload_tab 1
        { exit := false,
          tabs := [{ listing := 1, diskListing := 2, reloadErr := none },
                   { listing := 3, diskListing := 4, reloadErr := none }],
          curr_tab_index := 0, threads := [] } =
      (Except.ok (),
       { exit := false,
         tabs := [{ listing := 1, diskListing := 2, reloadErr := none },
                  { listing := 4, diskListing := 4, reloadErr := none }],
         curr_tab_index := 0, threads := [] },
       [Effect.reloadCall 1]) := by
  constructor
  · have := c7_reload_refresh_active_only.1
      { exit := false,
        tabs := [{ listing := 1, diskListing := 2, reloadErr := none },
                 { listing := 3, diskListing := 4, reloadErr := none }],
        curr_tab_index := 0, threads := [] } 0
      { listing := 1, diskListing := 2, reloadErr := none } rfl rfl rfl
    exact this
  · have := c7_reload_refresh_active_only.2.1
      { exit := false,
        tabs := [{ listing := 1, diskListing := 2, reloadErr := none },
                 { listing := 3, diskListing := 4, reloadErr := none }],
        curr_tab_index := 0, threads := [] } 1
      { listing := 3, diskListing := 4, reloadErr := none } rfl rfl
      (by decide)
    exact this

/-- Claim C5: when the worker joins successfully but the recorded
source tab index is no longer a valid index into the tab list,
`join_thread` skips the source reload entirely (no reload call at the
source index, and every reload call it does make targets a valid
index), still reloads the destination tab when its index differs from
the source — automatic here, as a valid destination is below the length
while the stale source is not — and is still valid, performs nothing
but the join when the destination is invalid too, and returns without
error whenever the attempted destination reload succeeds. -/
theorem c5_stale_source_tab_skipped :
    ∀ (ctx : JoshutoContext) (th : FileOperationThread),
      th.joinResult = JoinResult.JoinOk → ctx.tabs.length ≤ th.tab_src →
      (join_thread ctx th).2.2.countP (isReloadAt th.tab_src) = 0 ∧
      (join_thread ctx th).2.2.all (reloadWithin ctx.tabs.length) = true ∧
      (th.tab_dest < ctx.tabs.length →
        (join_thread ctx th).2.2.countP (isReloadAt th.tab_dest) = 1) ∧
      (¬ th.tab_dest < ctx.tabs.length →
        join_thread ctx th =
          (Except.ok (), ctx,
           [Effect.joinCall th.tab_src th.tab_dest])) ∧
      (∀ t : JoshutoTab, ctx.tabs.get? th.tab_dest = some t →
        t.reloadErr = none → (join_thread ctx th).1 = Except.ok ()) := by
  intro ctx th hok hsrc
  have hjoin : join_thread ctx th =
      join_reload_dest th.tab_src th.tab_dest (Except.ok (), ctx, []) := by
    unfold join_thread
    rw [hok]
    dsimp only
    rw [if_neg (Nat.not_lt.mpr hsrc)]
  by_cases hd : th.tab_dest < ctx.tabs.length
  · have hne : th.tab_dest ≠ th.tab_src :=
      Nat.ne_of_lt (Nat.lt_of_lt_of_le hd hsrc)
    have hcond : th.tab_dest ≠ th.tab_src ∧
        th.tab_dest < ctx.tabs.length := ⟨hne, hd⟩
    rcases h2 : reload_tab th.tab_dest ctx with ⟨r2, ctx2, tr2⟩
    have hjrd : join_reload_dest th.tab_src th.tab_dest
        (Except.ok (), ctx, []) =
        (r2, ctx2, Effect.joinCall th.tab_src th.tab_dest :: tr2) := by
      unfold join_reload_dest
      dsimp only
      rw [if_pos hcond, h2]
      rfl
    have htr2 : tr2 = [Effect.reloadCall th.tab_dest] ∨
        tr2 = [Effect.reloadCall th.tab_dest,
               Effect.refreshTab th.tab_dest] := by
      have := reload_tab_trace th.tab_dest ctx
      rw [h2] at this
      exact this
    refine ⟨?_, ?_, ?_, ?_, ?_⟩
    · rw [hjoin, hjrd]
      rcases htr2 with h | h <;>
        simp [h, List.countP_cons, isReloadAt, hne, Ne.symm hne]
    · rw [hjoin, hjrd]
      rcases htr2 with h | h <;>
        simp [h, List.all_cons, reloadWithin, hd]
    · intro _
      rw [hjoin, hjrd]
      rcases htr2 with h | h <;>
        simp [h, List.countP_cons, isReloadAt]
    · intro hcontra
      exact absurd hd hcontra
    · intro t hg he
      rw [hjoin, hjrd]
      have h3 := reload_tab_eq ctx th.tab_dest t hg he
      rw [h2] at h3
      exact congrArg (fun p => p.1) h3
  · have hjrd : join_reload_dest th.tab_src th.tab_dest
        (Except.ok (), ctx, []) =
        (Except.ok (), ctx,
         [Effect.joinCall th.tab_src th.tab_dest]) := by
      unfold join_reload_dest
      dsimp only
      rw [if_neg]
      intro hcond
      exact hd hcond.2
    refine ⟨?_, ?_, ?_, ?_, ?_⟩
    · rw [hjoin, hjrd]
      simp [List.countP_cons, isReloadAt]
    · rw [hjoin, hjrd]
      simp [List.all_cons, reloadWithin]
    · intro hcontra
      exact absurd hcontra hd
    · intro _
      rw [hjoin, hjrd]
    · intro t hg he
      rw [hjoin, hjrd]

/-- Witness for claim C5's theorem: a two-tab context whose finished
operation records stale source tab 5 and valid destination tab 1. -/
theorem c5_stale_source_witness :
    (join_thread
        { exit := false,
          tabs := [{ listing := 1, diskListing := 2, reloadErr := none },
                   { listing := 3, diskListing := 4, reloadErr := none }],
          curr_tab_index := 0, threads := [] }
        { tab_src := 5, tab_dest := 1,
          recvResult := RecvResult.Disconnected,
          joinResult := JoinResult.JoinOk }).2.2.countP (isReloadAt 5) = 0 ∧
    (join_thread
        { exit := false,
          tabs := [{ listing := 1, diskListing := 2, reloadErr := none },
                   { listing := 3, diskListing := 4, reloadErr := none }],
          curr_tab_index := 0, threads := [] }
        { tab_src := 5, tab_dest := 1,
          recvResult := RecvResult.Disconnected,
          joinResult := JoinResult.JoinOk }).2.2.countP (isReloadAt 1) = 1 ∧
    (join_thread
        { exit := false,
          tabs := [{ listing := 1, diskListing := 2, reloadErr := none },
                   { listing := 3, diskListing := 4, reloadErr := none }],
          curr_tab_index := 0, threads := [] }
        { tab_src := 5, tab_dest := 1,
          recvResult := RecvResult.Disconnected,
          joinResult := JoinResult.JoinOk }).1 = Except.ok () := by
  have h := c5_stale_source_tab_skipped
    { exit := false,
      tabs := [{ listing := 1, diskListing := 2, reloadErr := none },
               { listing := 3, diskListing := 4, reloadErr := none }],
      curr_tab_index := 0, threads := [] }
    { tab_src := 5, tab_dest := 1,
      recvResult := RecvResult.Disconnected,
      joinResult := JoinResult.JoinOk } rfl (by decide)
  exact ⟨h.1, h.2.2.1 (by decide),
    h.2.2.2.2 { listing := 3, diskListing := 4, reloadErr := none } rfl rfl⟩

lemma join_thread_src_reload_err (ctx : JoshutoContext)
    (th : FileOperationThread) (t : JoshutoTab) (e : Nat)
    (hok : th.joinResult = JoinResult.JoinOk)
    (hg : ctx.tabs.get? th.tab_src = some t) (he : t.reloadErr = some e) :
    join_thread ctx th =
      (Except.error e, ctx,
       [Effect.joinCall th.tab_src th.tab_dest,
        Effect.reloadCall th.tab_src]) := by
  have hsrc : th.tab_src < ctx.tabs.length := by
    rcases List.get?_eq_some.mp hg with ⟨hlt, _⟩
    exact hlt
  unfold join_thread
  rw [hok]
  dsimp only
  rw [if_pos hsrc, reload_tab_err ctx th.tab_src t e hg he]
  unfold join_reload_dest
  rfl

/-- Claim C6, counterexample: with one tab whose directory has become
inaccessible (reload fails with io error 7) and one tracked operation
over it whose channel has disconnected and whose worker joins
successfully, a poll pass returns `Except.error 7` — the reload failure
escapes `process_threads` to its caller as a `Result` error — and the
pass's effect trace contains no status message at all, so the failure
was neither caught at the point of use nor converted into a status
message. -/
theorem c6_counterexample :
    passResult
        { exit := false,
          tabs := [{ listing := 1, diskListing := 2, reloadErr := some 7 }],
          curr_tab_index := 0,
          threads := [{ tab_src := 0, tab_dest := 0,
                        recvResult := RecvResult.Disconnected,
                        joinResult := JoinResult.JoinOk }] } =
      Except.error 7 ∧
    (passTrace
        { exit := false,
          tabs := [{ listing := 1, diskListing := 2, reloadErr := some 7 }],
          curr_tab_index := 0,
          threads := [{ tab_src := 0, tab_dest := 0,
                        recvResult := RecvResult.Disconnected,
                        joinResult := JoinResult.JoinOk }] }).countP
      isMsgEff = 0 :=
  ⟨rfl, rfl⟩

/-- Claim C6, amended: a tab-reload I/O failure is not caught at the
point of use and is not converted into a status message: `reload_tab`
returns it as a `Result` error with no message effect, `join_thread`
propagates it with `?` after the join, and `process_threads` propagates
it out of the poll pass to its caller, again with no status message
anywhere in the pass's effect trace. -/
theorem c6_reload_error_propagates :
    (∀ (ctx : JoshutoContext) (i : Nat) (t : JoshutoTab) (e : Nat),
       ctx.tabs.get? i = some t → t.reloadErr = some e →
       reload_tab i ctx = (Except.error e, ctx, [Effect.reloadCall i])) ∧
    (∀ (ctx : JoshutoContext) (th : FileOperationThread) (t : JoshutoTab)
       (e : Nat), th.joinResult = JoinResult.JoinOk →
       ctx.tabs.get? th.tab_src = some t → t.reloadErr = some e →
       (join_thread ctx th).1 = Except.error e ∧
       (join_thread ctx th).2.2.countP isMsgEff = 0) ∧
    (∀ (ctx : JoshutoContext) (th : FileOperationThread)
       (rest : List FileOperationThread) (t : JoshutoTab) (e : Nat),
       ctx.threads = th :: rest →
       th.recvResult = RecvResult.Disconnected →
       th.joinResult = JoinResult.JoinOk →
       ctx.tabs.get? th.tab_src = some t → t.reloadErr = some e →
       passResult ctx = Except.error e ∧
       (passTrace ctx).countP isMsgEff = 0) := by
  refine ⟨?_, ?_, ?_⟩
  · intro ctx i t e hg he
    exact reload_tab_err ctx i t e hg he
  · intro ctx th t e hok hg he
    rw [join_thread_src_reload_err ctx th t e hok hg he]
    exact ⟨rfl, by simp [List.countP_cons, isMsgEff]⟩
  · intro ctx th rest t e hth hd hok hg he
    have hpass := pass_first_disconnected ctx th rest hth hd
    have hje := join_thread_src_reload_err
      { ctx with threads := swapRemove ctx.threads 0 } th t e hok hg he
    rw [hje] at hpass
    constructor
    · unfold passResult
      rw [hpass]
    · unfold passTrace
      rw [hpass]
      simp [List.countP_cons, isMsgEff]

/-- Witness for claim C6's amended theorem: a two-tab context whose
first tab fails to reload with io error 9; the poll pass over its
single disconnected operation returns that error and prints nothing. -/
theorem c6_reload_error_witness :
    passResult
        { exit := false,
          tabs := [{ listing := 1, diskListing := 2, reloadErr := some 9 },
                   { listing := 3, diskListing := 4, reloadErr := none }],
          curr_tab_index := 1,
          threads := [{ tab_src := 0, tab_dest := 1,
                        recvResult := RecvResult.Disconnected,
                        joinResult := JoinResult.JoinOk }] } =
      Except.error 9 ∧
    (passTrace
        { exit := false,
          tabs := [{ listing := 1, diskListing := 2, reloadErr := some 9 },
                   { listing := 3, diskListing := 4, reloadErr := none }],
          curr_tab_index := 1,
          threads := [{ tab_src := 0, tab_dest := 1,
                        recvResult := RecvResult.Disconnected,
                        joinResult := JoinResult.JoinOk }] }).countP
      isMsgEff = 0 :=
  c6_reload_error_propagates.2.2
    { exit := false,
      tabs := [{ listing := 1, diskListing := 2, reloadErr := some 9 },
               { listing := 3, diskListing := 4, reloadErr := none }],
      curr_tab_index := 1,
      threads := [{ tab_src := 0, tab_dest := 1,
                    recvResult := RecvResult.Disconnected,
                    joinResult := JoinResult.JoinOk }] }
    { tab_src := 0, tab_dest := 1,
      recvResult := RecvResult.Disconnected,
      joinResult := JoinResult.JoinOk } []
    { listing := 1, diskListing := 2, reloadErr := some 9 } 9
    rfl rfl rfl rfl rfl

/-- Claim C9: a poll pass never panics on an out-of-bounds index into
the tracked-operation list — because the pass breaks immediately after
its single `swap_remove`, every index it dereferences is read from the
unmutated list — and a pass removes at most one tracked operation, so
the list shrinks by at most one per call. -/
theorem c9_process_threads_in_bounds :
    ∀ ctx : JoshutoContext,
      (process_threads ctx).isPanic = false ∧
      (passCtx ctx).threads.length ≤ ctx.threads.length ∧
      ctx.threads.length ≤ (passCtx ctx).threads.length + 1 := by
  intro ctx
  have hnp : (process_threads ctx).isPanic = false := by
    unfold process_threads
    exact process_threads_go_no_panic ctx (List.range ctx.threads.length)
      (fun i hi => List.mem_range.mp hi)
  refine ⟨hnp, ?_, ?_⟩ <;>
    · cases hp : process_threads ctx with
      | panic =>
          rw [hp] at hnp
          exact absurd hnp (by simp [PanicOr.isPanic])
      | ok triple =>
          rcases triple with ⟨r, c, tr⟩
          have hlen := process_threads_go_len ctx
            (List.range ctx.threads.length) r c tr hp
          have hc : passCtx ctx = c := by unfold passCtx; rw [hp]
          rw [hc]
          omega

/-- Claim C4: a single poll pass handles at most one disconnected
channel (at most one worker join per pass); a pass in which no channel
is disconnected leaves the context unchanged and succeeds; when the
first tracked operation's channel is disconnected, the pass joins
exactly one worker, removes exactly one operation, and draws no
progress for the remaining operations (it stops scanning); and a
context tracking `n` operations whose channels have all disconnected is
drained over exactly `n` passes producing exactly `n` join calls. -/
theorem c4_one_disconnect_per_pass :
    (∀ ctx : JoshutoContext, countJoin (passTrace ctx) ≤ 1) ∧
    (∀ ctx : JoshutoContext,
       (∀ th ∈ ctx.threads, th.recvResult ≠ RecvResult.Disconnected) →
       passCtx ctx = ctx ∧ passResult ctx = Except.ok ()) ∧
    (∀ (ctx : JoshutoContext) (th : FileOperationThread)
       (rest : List FileOperationThread),
       ctx.threads = th :: rest →
       th.recvResult = RecvResult.Disconnected →
       countJoin (passTrace ctx) = 1 ∧
       (passCtx ctx).threads.length = rest.length ∧
       countProgress (passTrace ctx) = 0) ∧
    (∀ (n : Nat) (ctx : JoshutoContext), ctx.threads.length = n →
       (∀ th ∈ ctx.threads, th.recvResult = RecvResult.Disconnected) →
       (iterate_passes n ctx).1.threads = [] ∧
       countJoin (iterate_passes n ctx).2 = n) := by
  refine ⟨?_, ?_, ?_, ?_⟩
  · intro ctx
    cases hp : process_threads ctx with
    | panic => unfold passTrace; rw [hp]; simp [countJoin]
    | ok triple =>
        rcases triple with ⟨r, c, tr⟩
        have := process_threads_go_countJoin ctx
          (List.range ctx.threads.length) r c tr hp
        unfold passTrace
        rw [hp]
        exact this
  · intro ctx hall
    rcases process_threads_go_no_disc ctx hall
      (List.range ctx.threads.length) (fun i hi => List.mem_range.mp hi)
      with ⟨tr, hgo⟩
    have hp : process_threads ctx = PanicOr.ok (Except.ok (), ctx, tr) := hgo
    constructor
    · unfold passCtx; rw [hp]
    · unfold passResult; rw [hp]
  · intro ctx th rest hth hd
    have hpass := pass_first_disconnected ctx th rest hth hd
    rcases hJ : join_thread { ctx with threads := swapRemove ctx.threads 0 }
      th with ⟨r, c, tr⟩
    rw [hJ] at hpass
    have htrace : passTrace ctx = tr := by unfold passTrace; rw [hpass]
    have hctx : passCtx ctx = c := by unfold passCtx; rw [hpass]
    refine ⟨?_, ?_, ?_⟩
    · rw [htrace]
      have := countJoin_join_thread
        { ctx with threads := swapRemove ctx.threads 0 } th
      rw [hJ] at this
      exact this
    · rw [hctx]
      have hcth := join_thread_threads
        { ctx with threads := swapRemove ctx.threads 0 } th
      rw [hJ] at hcth
      rw [hcth]
      show (swapRemove ctx.threads 0).length = rest.length
      rw [swapRemove_length ctx.threads 0 (by rw [hth]; exact List.cons_ne_nil th rest)]
      rw [hth]
      rfl
    · rw [htrace]
      have := countProgress_join_thread
        { ctx with threads := swapRemove ctx.threads 0 } th
      rw [hJ] at this
      exact this
  · intro n
    induction n with
    | zero =>
        intro ctx hlen _
        have hnil : ctx.threads = [] := List.length_eq_zero.mp hlen
        rw [iterate_passes]
        exact ⟨hnil, rfl⟩
    | succ n ih =>
        intro ctx hlen hall
        cases hth : ctx.threads with
        | nil => rw [hth] at hlen; exact absurd hlen (by simp)
        | cons th rest =>
            have hd : th.recvResult = RecvResult.Disconnected :=
              hall th (by rw [hth]; exact List.mem_cons_self th rest)
            have hpass := pass_first_disconnected ctx th rest hth hd
            rcases hJ : join_thread
              { ctx with threads := swapRemove ctx.threads 0 } th
              with ⟨r, c, tr⟩
            rw [hJ] at hpass
            have hcth : c.threads = swapRemove ctx.threads 0 := by
              have := join_thread_threads
                { ctx with threads := swapRemove ctx.threads 0 } th
              rw [hJ] at this
              exact this
            have hclen : c.threads.length = n := by
              rw [hcth,
                swapRemove_length ctx.threads 0
                  (by rw [hth]; exact List.cons_ne_nil th rest),
                hlen]
              rfl
            have hcall : ∀ th2 ∈ c.threads,
                th2.recvResult = RecvResult.Disconnected := by
              intro th2 hmem
              rw [hcth] at hmem
              exact hall th2 (mem_swapRemove hmem)
            have hjoin1 : countJoin tr = 1 := by
              have := countJoin_join_thread
                { ctx with threads := swapRemove ctx.threads 0 } th
              rw [hJ] at this
              exact this
            rcases ih c hclen hcall with ⟨hrest1, hrest2⟩
            rw [iterate_passes, hpass]
            dsimp only
            rcases hit : iterate_passes n c with ⟨ctx2, tr2⟩
            rw [hit] at hrest1 hrest2
            dsimp only at hrest1 hrest2 ⊢
            refine ⟨hrest1, ?_⟩
            rw [countJoin, List.countP_append]
            rw [countJoin] at hjoin1 hrest2
            rw [hjoin1, hrest2]
            omega

/-- Witness for claim C4's theorem: two simultaneously disconnected
operations are drained in exactly two passes with exactly two joins,
and a pass over a single still-running (timed-out) operation changes
nothing. -/
theorem c4_one_disconnect_witness :
    (iterate_passes 2
        { exit := false,
          tabs := [{ listing := 1, diskListing := 2, reloadErr := none }],
          curr_tab_index := 0,
          threads := [{ tab_src := 0, tab_dest := 0,
                        recvResult := RecvResult.Disconnected,
                        joinResult := JoinResult.JoinOk },
                      { tab_src := 0, tab_dest := 0,
                        recvResult := RecvResult.Disconnected,
                        joinResult := JoinResult.JoinOk }] }).1.threads = [] ∧
    countJoin
      (iterate_passes 2
        { exit := false,
          tabs := [{ listing := 1, diskListing := 2, reloadErr := none }],
          curr_tab_index := 0,
          threads := [{ tab_src := 0, tab_dest := 0,
                        recvResult := RecvResult.Disconnected,
                        joinResult := JoinResult.JoinOk },
                      { tab_src := 0, tab_dest := 0,
                        recvResult := RecvResult.Disconnected,
                        joinResult := JoinResult.JoinOk }] }).2 = 2 ∧
    passCtx
        { exit := false,
          tabs := [{ listing := 1, diskListing := 2, reloadErr := none }],
          curr_tab_index := 0,
          threads := [{ tab_src := 0, tab_dest := 0,
                        recvResult := RecvResult.Timeout,
                        joinResult := JoinResult.JoinOk }] } =
      { exit := false,
        tabs := [{ listing := 1, diskListing := 2, reloadErr := none }],
        curr_tab_index := 0,
        threads := [{ tab_src := 0, tab_dest := 0,
                      recvResult := RecvResult.Timeout,
                      joinResult := JoinResult.JoinOk }] } :=
  ⟨(c4_one_disconnect_per_pass.2.2.2 2
      { exit := false,
        tabs := [{ listing := 1, diskListing := 2, reloadErr := none }],
        curr_tab_index := 0,
        threads := [{ tab_src := 0, tab_dest := 0,
                      recvResult := RecvResult.Disconnected,
                      joinResult := JoinResult.JoinOk },
                    { tab_src := 0, tab_dest := 0,
                      recvResult := RecvResult.Disconnected,
                      joinResult := JoinResult.JoinOk }] } rfl
      (by decide)).1,
   (c4_one_disconnect_per_pass.2.2.2 2
      { exit := false,
        tabs := [{ listing := 1, diskListing := 2, reloadErr := none }],
        curr_tab_index := 0,
        threads := [{ tab_src := 0, tab_dest := 0,
                      recvResult := RecvResult.Disconnected,
                      joinResult := JoinResult.JoinOk },
                    { tab_src := 0, tab_dest := 0,
                      recvResult := RecvResult.Disconnected,
                      joinResult := JoinResult.JoinOk }] } rfl
      (by decide)).2,
   (c4_one_disconnect_per_pass.2.1
      { exit := false,
        tabs := [{ listing := 1, diskListing := 2, reloadErr := none }],
        curr_tab_index := 0,
        threads := [{ tab_src := 0, tab_dest := 0,
                      recvResult := RecvResult.Timeout,
                      joinResult := JoinResult.JoinOk }] }
      (by decide)).1⟩

/-- Claim C10: keymap lookup is asymmetric between the top level and
chord continuations. At the top level of `run`, any key — character or
not — that is bound to a Simple keybind is looked up and its command is
dispatched for execution; inside `recurse_get_keycommand`, a
non-character key aborts resolution with no command at any depth,
without consulting the mapping, so a non-character binding inside a
Composite node is unreachable by chording. -/
theorem c10_top_level_chord_asymmetry :
    (∀ (exec : JoshutoCommand → JoshutoContext → Except Nat JoshutoContext)
       (km : List (Key × CommandKeybind)) (k : Key) (s : JoshutoCommand)
       (chord : List Event) (ctx : JoshutoContext),
       lookupKeymap km k = some (CommandKeybind.SimpleKeybind s) →
       run_resolve km k chord = some s ∧
       Effect.execCmd s ∈
         (run_iter exec km (some (Event.Input k)) chord ctx).2) ∧
    (∀ (m : List (Key × CommandKeybind)) (k : Key) (v : CommandKeybind)
       (rest : List Event),
       isChar k = false → lookupKeymap m k = some v →
       (recurse_get_keycommand m (Event.Input k :: rest)).1 = none) := by
  constructor
  · intro exec km k s chord ctx hl
    have hres : run_resolve km k chord = some s := by
      unfold run_resolve
      rw [hl]
    refine ⟨hres, ?_⟩
    rw [run_iter, hres]
    dsimp only
    cases he : exec s ctx with
    | error err => simp
    | ok ctx2 => simp
  · intro m k v rest hk _
    exact recurse_nonchar m k rest hk

/-- Witness for claim C10's theorem: the same non-character key
(`Key.other 3`, an arrow key) bound to command 9 executes from the top
level but is unreachable as a chord continuation. -/
theorem c10_asymmetry_witness :
    (run_resolve [(Key.other 3, CommandKeybind.SimpleKeybind 9)]
        (Key.other 3) [] = some 9 ∧
      Effect.execCmd 9 ∈
        (run_iter (fun _ c => Except.ok c)
          [(Key.other 3, CommandKeybind.SimpleKeybind 9)]
          (some (Event.Input (Key.other 3))) []
          { exit := false, tabs := [], curr_tab_index := 0,
            threads := [] }).2) ∧
    (recurse_get_keycommand [(Key.other 3, CommandKeybind.SimpleKeybind 9)]
        [Event.Input (Key.other 3)]).1 = none :=
  ⟨c10_top_level_chord_asymmetry.1 (fun _ c => Except.ok c)
      [(Key.other 3, CommandKeybind.SimpleKeybind 9)] (Key.other 3) 9 []
      { exit := false, tabs := [], curr_tab_index := 0, threads := [] }
      (by simp [lookupKeymap]),
   c10_top_level_chord_asymmetry.2
      [(Key.other 3, CommandKeybind.SimpleKeybind 9)] (Key.other 3)
      (CommandKeybind.SimpleKeybind 9) [] (by simp [isChar])
      (by simp [lookupKeymap])⟩
